import Mathlib

/-!
Shallow embedding of the TLS listener / resolver core of the repository
(`src/core/lib/src/tls/resolver.rs`, `src/core/lib/src/listener/tls.rs`,
`src/core/lib/src/tls/mod.rs`) together with proofs of the specification
claims about it.

The cryptographic primitives (rustls), the configuration builder
(`TlsConfig::to_server_config`, in `config.rs`, not part of the sources)
and the filesystem are external collaborators: they are modelled from the
specification at their interface boundary, as explained in the doc comments
below. Everything else is translated from the source.
-/

namespace RocketTls

/-- A rustls `ServerConfig`: per the spec an opaque, immutable bundle built
from certificate/key byte content, deterministic in that content; we identify
a built configuration by the certificate bytes it was built from. -/
structure ServerConfig where
  certBytes : List Nat
deriving DecidableEq

/-- Configuration build errors, spec section 4.1: `ConfigError`
(Io, Malformed, KeyMismatch, UnsupportedSuite). `Io` is spelled `IoFail`. -/
inductive ConfigError where
  | IoFail
  | Malformed
  | KeyMismatch
  | UnsupportedSuite
deriving DecidableEq

/-- `TlsConfig` (the SourceConfig of the spec): the certificate source is a file
path or in-memory bytes, mutually exclusive (`certs()` returns
`Either<&Path, &[u8]>` in the source). Only the certificate source is
relevant to the embedded operations. -/
structure TlsConfig where
  certs : Sum String (List Nat)
deriving DecidableEq

/-- A snapshot of the filesystem, the external collaborator of the resolver:
`modtime` is the result of `tokio::fs::metadata(path)` followed by
`.modified()` and `.duration_since(UNIX_EPOCH).as_secs()` — `none` when any
of those three fallible steps fails; `content` is the byte content read when
building a configuration, `none` on an unreadable file. -/
structure FsState where
  modtime : String → Option Nat
  content : String → Option (List Nat)

/-- Modelled from the spec: certificate/key parsing inside the builder;
fails with `Malformed` on unparsable byte content (we take empty content to
stand for unparsable content), otherwise yields the configuration
deterministically identified by those bytes. -/
def parseCert (bytes : List Nat) : Except ConfigError ServerConfig :=
  if bytes = [] then .error .Malformed else .ok ⟨bytes⟩

/-- Modelled from the spec: `TlsConfig::to_server_config` (the
`build(SourceConfig) -> Result<CryptoConfig, ConfigError>`, section 4.1),
whose body lives in `config.rs` outside the given sources. It reads the
certificate material (file read for a path source, the bytes themselves for
an in-memory source), failing with `IoFail` on an unreadable file and
`Malformed` on unparsable content; it is a pure, deterministic function of
the byte content. -/
def TlsConfig.to_server_config (c : TlsConfig) (fs : FsState) :
    Except ConfigError ServerConfig :=
  match c.certs with
  | .inl path =>
    match fs.content path with
    | none => .error .IoFail
    | some bytes => parseCert bytes
  | .inr bytes => parseCert bytes

/-- The parsed-ClientHello view handed to resolvers: the optional SNI server
name (`hello.server_name()`) and the offered application protocols. -/
structure ClientHello where
  server_name : Option String
  alpn : List String
deriving DecidableEq

/-- A normalized hostname, the key type of the SNI map. -/
structure Host where
  name : String
deriving DecidableEq

/-- Modelled from the spec: ASCII lowercasing of one character, used for the
case-insensitive hostname normalization of spec section 4.5. -/
def lowerChar (c : Char) : Char :=
  if 65 ≤ c.toNat ∧ c.toNat ≤ 90 then Char.ofNat (c.toNat + 32) else c

/-- Modelled from the spec: `Host::parse` (the URI host parser of rocket, outside
the given sources); per spec section 4.5 resolution normalizes the hostname
case-insensitively and rejects an empty name. -/
def Host.parse (s : String) : Option Host :=
  if s.data = [] then none else some ⟨String.mk (s.data.map lowerChar)⟩

/-- Association-list lookup standing for the `HashMap::get` of the
`sni_map` (first binding of the key wins; a `HashMap` has unique keys). -/
def lookupHost : List (Host × ServerConfig) → Host → Option ServerConfig
  | [], _ => none
  | (k, v) :: rest, h => if k = h then some v else lookupHost rest h

/-- `SniResolver`: holds the immutable map from hostname to pre-built
configuration (`resolver.rs` lines 65–67). -/
structure SniResolver where
  sni_map : List (Host × ServerConfig)

/-- `SniResolver::resolve` (`resolver.rs` lines 71–74):
`let host = Host::parse(hello.server_name()?).ok()?;
 self.sni_map.get(&host).cloned()`. -/
def SniResolver.resolve (r : SniResolver) (hello : ClientHello) :
    Option ServerConfig :=
  match hello.server_name with
  | none => none
  | some raw =>
    match Host.parse raw with
    | none => none
    | some host => lookupHost r.sni_map host

/-- `UpdatingResolver` (`resolver.rs` lines 77–81): the last-observed
modification timestamp (`AtomicU64`), the immutable source `TlsConfig`, and
the current configuration slot (`ArcSwap<ServerConfig>`). -/
structure UpdatingResolver where
  timestamp : Nat
  tls_config : TlsConfig
  server_config : ServerConfig
deriving DecidableEq

/-- `UpdatingResolver::try_from` (`resolver.rs` lines 86–92): builds the
initial configuration eagerly, starts the timestamp at 0. -/
def UpdatingResolver.try_from (c : TlsConfig) (fs : FsState) :
    Except ConfigError UpdatingResolver :=
  match c.to_server_config fs with
  | .error e => .error e
  | .ok cfg => .ok ⟨0, c, cfg⟩

/-- Outcome of one `UpdatingResolver::resolve` call: the returned optional
configuration, the resolver state after the call, and instrumentation
counters for how many file stats and configuration rebuild attempts the call
performed. -/
structure ResolveOut where
  result : Option ServerConfig
  state : UpdatingResolver
  statCalls : Nat
  rebuilds : Nat
deriving DecidableEq

/-- `UpdatingResolver::resolve` (`resolver.rs` lines 97–111), sequential
(single-call) semantics with explicit state passing:

```
if let Either::Left(path) = self.tls_config.certs() {
    let metadata = tokio::fs::metadata(&path).await.ok()?;
    let modtime = metadata.modified().ok()?;
    let timestamp = modtime.duration_since(UNIX_EPOCH).ok()?.as_secs();
    let old_timestamp = self.timestamp.load(Ordering::Acquire);
    if timestamp > old_timestamp {
        let new_config = self.tls_config.to_server_config().ok()?;
        self.server_config.store(Arc::new(new_config));
        self.timestamp.store(timestamp, Ordering::Release);
    }
}
Some(self.server_config.load_full())
```

The three fallible stat steps are collapsed into `fs.modtime`; each `.ok()?`
returns `None` from `resolve` with no state change. -/
def UpdatingResolver.resolve (r : UpdatingResolver) (fs : FsState)
    (_hello : ClientHello) : ResolveOut :=
  match r.tls_config.certs with
  | .inl path =>
    match fs.modtime path with
    | none => ⟨none, r, 1, 0⟩
    | some timestamp =>
      if timestamp > r.timestamp then
        match r.tls_config.to_server_config fs with
        | .error _ => ⟨none, r, 1, 1⟩
        | .ok new_config =>
          ⟨some new_config,
           { r with server_config := new_config, timestamp := timestamp },
           1, 1⟩
      else ⟨some r.server_config, r, 1, 0⟩
  | .inr _ => ⟨some r.server_config, r, 0, 0⟩

/-- Handshake errors, spec section 4.2: `HandshakeError`
(Protocol, Io, Timeout, Tls). `Io` is spelled `IoFail`. -/
inductive HandshakeError where
  | Protocol
  | IoFail
  | Timeout
  | Tls
deriving DecidableEq

/-- Observable phases of one `TlsListener::connect` call, recorded in order
of occurrence: completion of phase 1 (ClientHello parsed), invocation of the
registered resolver, entry into phase 2 (`into_stream`). -/
inductive Event where
  | phase1Done
  | resolverCalled
  | phase2Entered
deriving DecidableEq

/-- Modelled from the spec: phase 1 of the two-phase acceptor
(`LazyConfigAcceptor` / `Acceptor::default()`, an external rustls
collaborator). It fails with a `Protocol` error when the initial bytes are
not a valid TLS record (a TLS handshake record begins with content type
byte 22); on a valid record it exposes the parsed ClientHello view, whose
SNI name we decode as the character codes before the first 0 byte (absent
when that run is empty). -/
def parseClientHello (bytes : List Nat) : Except HandshakeError ClientHello :=
  match bytes with
  | 22 :: rest =>
    let sni := rest.takeWhile (fun b => b ≠ 0)
    .ok { server_name :=
            if sni = [] then none
            else some (String.mk (sni.map Char.ofNat)),
          alpn := [] }
  | _ => .error .Protocol

/-- The established connection produced by `handshake.into_stream(config)`:
it records the configuration committed in phase 2 and the hello it answered. -/
structure TlsConn where
  config : ServerConfig
  hello : ClientHello
deriving DecidableEq

/-- Modelled from the spec: phase 2 of the two-phase acceptor
(`handshake.into_stream(config)`), finalizing the handshake with the
supplied configuration. Cryptographic negotiation failures happen inside the
external TLS library; the embedding establishes the connection with the
configuration it was given. -/
def into_stream (hello : ClientHello) (config : ServerConfig) :
    Except HandshakeError TlsConn :=
  .ok ⟨config, hello⟩

/-- `TlsListener` (`tls.rs` lines 16–21): the optional registered resolver
(embedded as its `resolve` function), the static default configuration, and
the source `TlsConfig`. The inner transport listener is irrelevant to the
embedded `connect`. -/
structure TlsListener where
  resolver : Option (ClientHello → Option ServerConfig)
  default : ServerConfig
  config : TlsConfig

/-- `TlsListener::connect` (`tls.rs` lines 64–74), paired with the trace of
phase events it performs:

```
let acceptor = LazyConfigAcceptor::new(Acceptor::default(), conn);
let handshake = acceptor.await?;
let hello = handshake.client_hello();
let config = match &self.resolver {
    Some(r) => r.resolve(hello).await.unwrap_or_else(|| self.default.clone()),
    None => self.default.clone(),
};
handshake.into_stream(config).await
```
-/
def TlsListener.connect (l : TlsListener) (conn : List Nat) :
    Except HandshakeError TlsConn × List Event :=
  match parseClientHello conn with
  | .error e => (.error e, [])
  | .ok hello =>
    match l.resolver with
    | some r =>
      let config := (r hello).getD l.default
      (into_stream hello config, [.phase1Done, .resolverCalled, .phase2Entered])
    | none =>
      (into_stream hello l.default, [.phase1Done, .phase2Entered])

/-- Verified peer certificate chain (`Certificates::from(cert_chain)`). -/
structure Certificates where
  chain : List (List Nat)
deriving DecidableEq

/-- Handshake state of an established TLS connection, as far as
`TlsStream::certificates` observes it: whether mutual TLS was negotiated and
the certificate chain the peer presented (empty when it presented none). -/
structure TlsStream where
  mtls_negotiated : Bool
  presented_chain : List (List Nat)
deriving DecidableEq

/-- Modelled from the spec: `peer_certificates()` of the external rustls
connection (`self.get_ref().1.peer_certificates()`); it yields the verified
chain exactly when mutual TLS was negotiated and the peer presented a
(nonempty) certificate chain, and `None` otherwise. -/
def TlsStream.peer_certificates (s : TlsStream) : Option (List (List Nat)) :=
  if s.mtls_negotiated = true ∧ s.presented_chain ≠ [] then
    some s.presented_chain
  else
    none

/-- `TlsStream::certificates` (`tls.rs` lines 87–90):
`let cert_chain = self.get_ref().1.peer_certificates()?;
 Some(Certificates::from(cert_chain))`. -/
def TlsStream.certificates (s : TlsStream) : Option Certificates :=
  match s.peer_certificates with
  | none => none
  | some cert_chain => some ⟨cert_chain⟩

/-!
Interleaved (concurrent) semantics of `UpdatingResolver::resolve`.

The shared state a resolve call touches is the `AtomicU64` timestamp and the
`ArcSwap` configuration slot. After a successful stat and on the rebuild
path a call executes three distinct atomic accesses, in program order
(`resolver.rs` lines 102–106):

1. `self.timestamp.load(Ordering::Acquire)` — read the old timestamp;
2. the comparison against the stat result; when newer, rebuild and
   `self.server_config.store(...)` — replace the slot;
3. `self.timestamp.store(timestamp, Ordering::Release)` — write the stat
   result to the timestamp, unconditionally at this point.

Nothing joins the load and the stores into one atomic unit, so steps of
concurrently executing calls may interleave between them.
-/

/-- Program counter of one in-flight resolve call, at the granularity of its
shared-memory accesses: before the timestamp load; before the
compare-and-slot-store, carrying the loaded value; before the timestamp
store; finished. -/
inductive ThreadPc where
  | atLoad
  | atStoreSlot (old : Nat)
  | atStoreTs
  | finished
deriving DecidableEq

/-- Call-local immutable data of one in-flight resolve call: the modification
time its own stat observed, and the configuration its own rebuild produced. -/
structure ThreadCtx where
  modtime : Nat
  built : ServerConfig
deriving DecidableEq

/-- The shared state: the atomic timestamp and the configuration slot. -/
structure Shared where
  timestamp : Nat
  slot : ServerConfig
deriving DecidableEq

/-- One atomic step of an in-flight resolve call (see the section comment
for the correspondence with `resolver.rs` lines 102–106). -/
def threadStep (ctx : ThreadCtx) (pc : ThreadPc) (s : Shared) :
    ThreadPc × Shared :=
  match pc with
  | .atLoad => (.atStoreSlot s.timestamp, s)
  | .atStoreSlot old =>
    if ctx.modtime > old then (.atStoreTs, { s with slot := ctx.built })
    else (.finished, s)
  | .atStoreTs => (.finished, { s with timestamp := ctx.modtime })
  | .finished => (.finished, s)

/-- Run two concurrent resolve calls A and B under a schedule (`true` steps
A, `false` steps B), returning the sequence of shared states after each
step. -/
def runSched (ca cb : ThreadCtx) :
    List Bool → ThreadPc → ThreadPc → Shared → List Shared
  | [], _, _, _ => []
  | true :: rest, pa, pb, s =>
    let step := threadStep ca pa s
    step.2 :: runSched ca cb rest step.1 pb step.2
  | false :: rest, pa, pb, s =>
    let step := threadStep cb pb s
    step.2 :: runSched ca cb rest pa step.1 step.2

/-- A list of naturals is non-decreasing from left to right (executable
check, used to state timestamp monotonicity over a trace). -/
def nondecreasing : List Nat → Bool
  | a :: b :: rest => a ≤ b && nondecreasing (b :: rest)
  | _ => true

/-!
Concrete fixtures, used by the witness and counterexample theorems below.
-/

/-- A configuration whose certificate source is a file path. -/
def cfgPath : TlsConfig := ⟨.inl "private/cert.pem"⟩

/-- A configuration whose certificate source is in-memory bytes. -/
def cfgMem : TlsConfig := ⟨.inr [7, 7]⟩

/-- Filesystem where the certificate file has modification time 5 and
content `[1]`. -/
def fsA : FsState := ⟨fun _ => some 5, fun _ => some [1]⟩

/-- Filesystem where the certificate file has modification time 9 and
content `[2]` (the file rewritten later). -/
def fsB : FsState := ⟨fun _ => some 9, fun _ => some [2]⟩

/-- Filesystem where every stat and every read fails. -/
def fsDown : FsState := ⟨fun _ => none, fun _ => none⟩

/-- A ClientHello carrying no SNI name. -/
def helloNone : ClientHello := ⟨none, []⟩

/-- A ClientHello requesting `api.rocket.rs`. -/
def helloApi : ClientHello := ⟨some "api.rocket.rs", []⟩

/-- C1. The claim says a successfully initialized `UpdatingResolver` never
returns `None` from `resolve`, returning the cached configuration when the
stat fails. In the code each fallible step uses `.ok()?`, which returns
`None` from `resolve`: here a resolver successfully initialized from a
readable file returns `none` from `resolve` once every stat fails. -/
theorem updating_resolve_stat_failure_counterexample :
    UpdatingResolver.try_from cfgPath fsA = .ok ⟨0, cfgPath, ⟨[1]⟩⟩ ∧
    ((UpdatingResolver.mk 0 cfgPath ⟨[1]⟩).resolve fsDown helloNone).result =
      none := by
  exact ⟨rfl, rfl⟩

/-- C1 (amended). With a file-path certificate source, `resolve` returns
`none` exactly when the stat fails or the stat reports a strictly newer
modification time and the rebuild fails; in those cases the cached state is
untouched (the listener then falls back to its static default), and whenever
the stat succeeds without reporting a newer time, `resolve` returns the
previously cached configuration. -/
theorem updating_resolve_none_iff (r : UpdatingResolver) (fs : FsState)
    (hello : ClientHello) (path : String)
    (hp : r.tls_config.certs = .inl path) :
    ((r.resolve fs hello).result = none ↔
      fs.modtime path = none ∨
      ∃ t, fs.modtime path = some t ∧ r.timestamp < t ∧
        ∃ e, r.tls_config.to_server_config fs = .error e) ∧
    ((r.resolve fs hello).result = none → (r.resolve fs hello).state = r) ∧
    (∀ t, fs.modtime path = some t → ¬ r.timestamp < t →
      (r.resolve fs hello).result = some r.server_config) := by
  unfold UpdatingResolver.resolve
  rw [hp]
  cases hmt : fs.modtime path with
  | none => simp [hmt]
  | some t =>
    by_cases hgt : r.timestamp < t
    · cases hb : r.tls_config.to_server_config fs with
      | error e =>
        simp only [hmt, if_pos hgt, hb]
        refine ⟨?_, ?_, ?_⟩
        · simp only [true_iff]
          exact Or.inr ⟨t, rfl, hgt, e, rfl⟩
        · intro _; trivial
        · intro t2 ht2 hle
          cases ht2
          exact absurd hgt hle
      | ok c =>
        simp only [hmt, if_pos hgt, hb]
        refine ⟨?_, ?_, ?_⟩
        · simp only [iff_false, reduceCtorEq, false_iff]
          rintro (h | ⟨t2, ht2, _, e, he⟩)
          · cases h
          · cases he
        · intro h; cases h
        · intro t2 ht2 hle
          cases ht2
          exact absurd hgt hle
    · simp only [hmt, if_neg hgt]
      refine ⟨?_, ?_, ?_⟩
      · constructor
        · intro h; cases h
        · rintro (h | ⟨t2, ht2, hlt, _⟩)
          · cases h
          · cases ht2
            exact absurd hlt hgt
      · intro h; cases h
      · intro t2 ht2 _
        trivial

/-- C1 (amended), witness: at concrete inputs, a stat failure yields `none`
with unchanged state, and an unchanged file yields the cached
configuration. -/
theorem updating_resolve_none_iff_witness :
    ((UpdatingResolver.mk 0 cfgPath ⟨[1]⟩).resolve fsDown helloNone).result =
      none ∧
    ((UpdatingResolver.mk 0 cfgPath ⟨[1]⟩).resolve fsDown helloNone).state =
      UpdatingResolver.mk 0 cfgPath ⟨[1]⟩ ∧
    ((UpdatingResolver.mk 5 cfgPath ⟨[1]⟩).resolve fsA helloNone).result =
      some ⟨[1]⟩ := by
  have h1 := updating_resolve_none_iff (UpdatingResolver.mk 0 cfgPath ⟨[1]⟩)
    fsDown helloNone "private/cert.pem" rfl
  have h2 := updating_resolve_none_iff (UpdatingResolver.mk 5 cfgPath ⟨[1]⟩)
    fsA helloNone "private/cert.pem" rfl
  exact ⟨h1.1.mpr (Or.inl rfl), h1.2.1 (h1.1.mpr (Or.inl rfl)),
    h2.2.2 5 rfl (by decide)⟩

/-- C7. `UpdatingResolver::resolve` binds its ClientHello argument to `_`
and never inspects it: two calls in the same resolver and filesystem state
that differ only in the ClientHello (SNI name, ALPN offers) return the same
outcome. -/
theorem updating_resolve_ignores_hello (r : UpdatingResolver) (fs : FsState)
    (h1 h2 : ClientHello) : r.resolve fs h1 = r.resolve fs h2 := rfl

/-- C10. When the certificate source is in-memory bytes,
`if let Either::Left(path)` does not match, so every `resolve` call performs
no stat and no rebuild, leaves the timestamp and the configuration slot
unchanged, and returns the configuration that `try_from` built at
construction time. -/
theorem updating_resolve_memory_frame (c : TlsConfig) (bytes : List Nat)
    (fs : FsState) (r : UpdatingResolver)
    (hb : c.certs = .inr bytes)
    (hinit : UpdatingResolver.try_from c fs = .ok r) :
    (∀ fs2 hello, r.resolve fs2 hello =
      ⟨some r.server_config, r, 0, 0⟩) ∧
    c.to_server_config fs = .ok r.server_config := by
  unfold UpdatingResolver.try_from at hinit
  cases hc : c.to_server_config fs with
  | error e => rw [hc] at hinit; cases hinit
  | ok cfg =>
    rw [hc] at hinit
    injection hinit with h
    subst h
    refine ⟨fun fs2 hello => ?_, rfl⟩
    unfold UpdatingResolver.resolve
    simp [hb]

/-- C10, witness: a resolver built from in-memory bytes, resolving against a
filesystem where every stat fails, still returns the construction-time
configuration with untouched state and zero stats and rebuilds. -/
theorem updating_resolve_memory_frame_witness :
    (UpdatingResolver.mk 0 cfgMem ⟨[7, 7]⟩).resolve fsDown helloNone =
      ⟨some ⟨[7, 7]⟩, UpdatingResolver.mk 0 cfgMem ⟨[7, 7]⟩, 0, 0⟩ ∧
    cfgMem.to_server_config fsA = .ok ⟨[7, 7]⟩ := by
  have h := updating_resolve_memory_frame cfgMem [7, 7] fsA
    (UpdatingResolver.mk 0 cfgMem ⟨[7, 7]⟩) rfl rfl
  exact ⟨h.1 fsDown helloNone, h.2⟩

/-- C6. With a file-path certificate source: two successive `resolve` calls
that both stat the same modification time `t0` (no intervening change)
perform at most one rebuild between them; and after the file is rewritten so
that a later call stats `t1 > t0` and the rebuild from the new content
succeeds, that call returns the configuration built from the new content. -/
theorem updating_resolve_rebuild_once (r : UpdatingResolver)
    (fs fs2 : FsState) (hello : ClientHello) (path : String)
    (t0 t1 : Nat) (c c2 : ServerConfig)
    (hp : r.tls_config.certs = .inl path)
    (h0 : fs.modtime path = some t0)
    (hb : r.tls_config.to_server_config fs = .ok c)
    (hle : r.timestamp ≤ t0)
    (h1 : fs2.modtime path = some t1)
    (ht1 : t0 < t1)
    (hb2 : r.tls_config.to_server_config fs2 = .ok c2) :
    (r.resolve fs hello).rebuilds +
      ((r.resolve fs hello).state.resolve fs hello).rebuilds ≤ 1 ∧
    ((r.resolve fs hello).state.resolve fs2 hello).result = some c2 := by
  by_cases hgt : r.timestamp < t0
  · have hfirst : r.resolve fs hello =
        ⟨some c, ⟨t0, r.tls_config, c⟩, 1, 1⟩ := by
      unfold UpdatingResolver.resolve
      simp only [hp, h0, if_pos hgt, hb]
    have hsecond : (UpdatingResolver.mk t0 r.tls_config c).resolve fs hello =
        ⟨some c, ⟨t0, r.tls_config, c⟩, 1, 0⟩ := by
      unfold UpdatingResolver.resolve
      simp only [hp, h0, if_neg (lt_irrefl t0)]
    have hthird : (UpdatingResolver.mk t0 r.tls_config c).resolve fs2 hello =
        ⟨some c2, ⟨t1, r.tls_config, c2⟩, 1, 1⟩ := by
      unfold UpdatingResolver.resolve
      simp only [hp, h1, if_pos ht1, hb2]
    rw [hfirst]
    exact ⟨by rw [hsecond]; simp, by rw [hthird]⟩
  · have heq : r.timestamp = t0 := le_antisymm hle (not_lt.mp hgt)
    have hfirst : r.resolve fs hello =
        ⟨some r.server_config, r, 1, 0⟩ := by
      unfold UpdatingResolver.resolve
      simp only [hp, h0, if_neg hgt]
    have hthird : r.resolve fs2 hello =
        ⟨some c2, ⟨t1, r.tls_config, c2⟩, 1, 1⟩ := by
      unfold UpdatingResolver.resolve
      simp only [hp, h1, if_pos (heq ▸ ht1), hb2]
    rw [hfirst]
    exact ⟨by rw [hfirst]; simp, by rw [hthird]⟩

/-- C6, witness: first call rebuilds from the initial file, a repeat call
with the unchanged file does not rebuild, and a call after the rewrite
returns the configuration built from the new content. -/
theorem updating_resolve_rebuild_once_witness :
    (((UpdatingResolver.mk 0 cfgPath ⟨[1]⟩).resolve fsA helloNone).rebuilds +
      (((UpdatingResolver.mk 0 cfgPath ⟨[1]⟩).resolve fsA
          helloNone).state.resolve fsA helloNone).rebuilds ≤ 1) ∧
    ((((UpdatingResolver.mk 0 cfgPath ⟨[1]⟩).resolve fsA
        helloNone).state.resolve fsB helloNone).result = some ⟨[2]⟩) := by
  exact updating_resolve_rebuild_once (UpdatingResolver.mk 0 cfgPath ⟨[1]⟩)
    fsA fsB helloNone "private/cert.pem" 5 9 ⟨[1]⟩ ⟨[2]⟩
    rfl rfl rfl (by decide) rfl (by decide) rfl

/-- Grounding of the interleaved model in the sequential embedding: a single
resolve call whose stat succeeded and whose rebuild (when triggered)
succeeds, run alone to completion through `threadStep`, leaves the shared
timestamp and slot exactly as the sequential `resolve` does. -/
theorem runSched_single_agrees_with_resolve (r : UpdatingResolver)
    (fs : FsState) (hello : ClientHello) (path : String) (t : Nat)
    (c : ServerConfig)
    (hp : r.tls_config.certs = .inl path)
    (ht : fs.modtime path = some t)
    (hb : r.tls_config.to_server_config fs = .ok c) :
    (runSched ⟨t, c⟩ ⟨t, c⟩ [true, true, true] .atLoad .atLoad
        ⟨r.timestamp, r.server_config⟩).getLast? =
      some ⟨(r.resolve fs hello).state.timestamp,
            (r.resolve fs hello).state.server_config⟩ := by
  by_cases hgt : r.timestamp < t
  · have hres : r.resolve fs hello = ⟨some c, ⟨t, r.tls_config, c⟩, 1, 1⟩ := by
      unfold UpdatingResolver.resolve
      simp only [hp, ht, if_pos hgt, hb]
    rw [hres]
    simp [runSched, threadStep, hgt]
  · have hres : r.resolve fs hello = ⟨some r.server_config, r, 1, 0⟩ := by
      unfold UpdatingResolver.resolve
      simp only [hp, ht, if_neg hgt]
    rw [hres]
    simp [runSched, threadStep, hgt]

/-- C2. The claim says the stored timestamp never decreases across any
sequence of resolve calls, concurrent ones included. The timestamp store
(`resolver.rs` line 106) is unconditional once the stale comparison at line
103 has passed, and nothing joins the load at line 102 with the stores into
one atomic unit. Interleaving two concurrent calls — one that stat-ed
modification time 10, one that stat-ed 5, both loading the initial timestamp
0 before either stores — drives the shared timestamp through 0, 10, 5: it
decreases. -/
theorem updating_timestamp_concurrent_decrease :
    (runSched ⟨10, ⟨[2]⟩⟩ ⟨5, ⟨[3]⟩⟩ [false, true, true, true, false, false]
        .atLoad .atLoad ⟨0, ⟨[1]⟩⟩).map Shared.timestamp =
      [0, 0, 0, 10, 10, 5] ∧
    nondecreasing [0, 0, 0, 10, 10, 5] = false := by
  decide

/-- C2 (amended). Within a single (non-overlapping) `resolve` call the
stored timestamp never decreases, and it changes only when the stat-ed
modification time is strictly greater than the stored value, in which case
it is advanced exactly to that modification time; under concurrently
interleaved calls the unconditional store after a stale comparison can
decrease it. -/
theorem updating_resolve_timestamp_monotone (r : UpdatingResolver)
    (fs : FsState) (hello : ClientHello) :
    r.timestamp ≤ (r.resolve fs hello).state.timestamp ∧
    ((r.resolve fs hello).state.timestamp ≠ r.timestamp →
      ∃ path t, r.tls_config.certs = .inl path ∧ fs.modtime path = some t ∧
        r.timestamp < t ∧ (r.resolve fs hello).state.timestamp = t) := by
  cases hc : r.tls_config.certs with
  | inr bytes =>
    have hres : r.resolve fs hello = ⟨some r.server_config, r, 0, 0⟩ := by
      unfold UpdatingResolver.resolve
      simp only [hc]
    rw [hres]
    exact ⟨le_refl _, fun h => absurd rfl h⟩
  | inl path =>
    cases hmt : fs.modtime path with
    | none =>
      have hres : r.resolve fs hello = ⟨none, r, 1, 0⟩ := by
        unfold UpdatingResolver.resolve
        simp only [hc, hmt]
      rw [hres]
      exact ⟨le_refl _, fun h => absurd rfl h⟩
    | some t =>
      by_cases hgt : r.timestamp < t
      · cases hb : r.tls_config.to_server_config fs with
        | error e =>
          have hres : r.resolve fs hello = ⟨none, r, 1, 1⟩ := by
            unfold UpdatingResolver.resolve
            simp only [hc, hmt, if_pos hgt, hb]
          rw [hres]
          exact ⟨le_refl _, fun h => absurd rfl h⟩
        | ok c =>
          have hres : r.resolve fs hello =
              ⟨some c, ⟨t, r.tls_config, c⟩, 1, 1⟩ := by
            unfold UpdatingResolver.resolve
            simp only [hc, hmt, if_pos hgt, hb]
          rw [hres]
          exact ⟨hgt.le, fun _ => ⟨path, t, rfl, hmt, hgt, rfl⟩⟩
      · have hres : r.resolve fs hello = ⟨some r.server_config, r, 1, 0⟩ := by
          unfold UpdatingResolver.resolve
          simp only [hc, hmt, if_neg hgt]
        rw [hres]
        exact ⟨le_refl _, fun h => absurd rfl h⟩

/-- C2 (amended), witness: a concrete call that advances the timestamp from
0 to the stat-ed modification time 5. -/
theorem updating_resolve_timestamp_monotone_witness :
    (UpdatingResolver.mk 0 cfgPath ⟨[1]⟩).timestamp ≤
      ((UpdatingResolver.mk 0 cfgPath ⟨[1]⟩).resolve fsA
        helloNone).state.timestamp ∧
    ∃ path t, cfgPath.certs = .inl path ∧ fsA.modtime path = some t ∧
      0 < t ∧
      ((UpdatingResolver.mk 0 cfgPath ⟨[1]⟩).resolve fsA
        helloNone).state.timestamp = t := by
  have h := updating_resolve_timestamp_monotone
    (UpdatingResolver.mk 0 cfgPath ⟨[1]⟩) fsA helloNone
  exact ⟨h.1, h.2 (by decide)⟩

/-- C5. For the SNI map resolver: a hello requesting a hostname present in
the map resolves to the mapped configuration, a hello requesting a parseable
hostname absent from the map resolves to `none`, and a hello carrying no SNI
name resolves to `none`. -/
theorem sni_resolve_map_semantics (r : SniResolver) (hello : ClientHello) :
    (∀ raw h c, hello.server_name = some raw → Host.parse raw = some h →
      lookupHost r.sni_map h = some c → r.resolve hello = some c) ∧
    (∀ raw h, hello.server_name = some raw → Host.parse raw = some h →
      lookupHost r.sni_map h = none → r.resolve hello = none) ∧
    (hello.server_name = none → r.resolve hello = none) := by
  refine ⟨?_, ?_, ?_⟩
  · intro raw h c hname hparse hlook
    unfold SniResolver.resolve
    simp only [hname, hparse, hlook]
  · intro raw h hname hparse hlook
    unfold SniResolver.resolve
    simp only [hname, hparse, hlook]
  · intro hname
    unfold SniResolver.resolve
    simp only [hname]

/-- C5, witness: in a concrete one-entry map, the mapped host resolves to
its configuration, an unmapped host resolves to `none`, and a hello without
SNI resolves to `none`. -/
theorem sni_resolve_map_semantics_witness :
    (SniResolver.mk [(⟨"api.rocket.rs"⟩, ⟨[1]⟩)]).resolve helloApi =
      some ⟨[1]⟩ ∧
    (SniResolver.mk [(⟨"api.rocket.rs"⟩, ⟨[1]⟩)]).resolve
      ⟨some "blob.rocket.rs", []⟩ = none ∧
    (SniResolver.mk [(⟨"api.rocket.rs"⟩, ⟨[1]⟩)]).resolve helloNone =
      none := by
  refine ⟨?_, ?_, ?_⟩
  · exact (sni_resolve_map_semantics
      (SniResolver.mk [(⟨"api.rocket.rs"⟩, ⟨[1]⟩)]) helloApi).1
      "api.rocket.rs" ⟨"api.rocket.rs"⟩ ⟨[1]⟩ rfl (by decide) (by decide)
  · exact (sni_resolve_map_semantics
      (SniResolver.mk [(⟨"api.rocket.rs"⟩, ⟨[1]⟩)])
      ⟨some "blob.rocket.rs", []⟩).2.1
      "blob.rocket.rs" ⟨"blob.rocket.rs"⟩ rfl (by decide) (by decide)
  · exact (sni_resolve_map_semantics
      (SniResolver.mk [(⟨"api.rocket.rs"⟩, ⟨[1]⟩)]) helloNone).2.2 rfl

/-- C9. When the hello carries an SNI name that `Host::parse` rejects, the
`.ok()?` on the parse result makes `resolve` return `none` without any map
lookup and without raising an error. -/
theorem sni_resolve_unparsable_none (r : SniResolver) (hello : ClientHello)
    (raw : String) (hname : hello.server_name = some raw)
    (hparse : Host.parse raw = none) : r.resolve hello = none := by
  unfold SniResolver.resolve
  simp only [hname, hparse]

/-- C9, witness: an empty SNI name is rejected by the host parser and
resolves to `none` even when the map is nonempty. -/
theorem sni_resolve_unparsable_none_witness :
    (SniResolver.mk [(⟨"api.rocket.rs"⟩, ⟨[1]⟩)]).resolve ⟨some "", []⟩ =
      none :=
  sni_resolve_unparsable_none (SniResolver.mk [(⟨"api.rocket.rs"⟩, ⟨[1]⟩)])
    ⟨some "", []⟩ "" rfl (by decide)

/-- C3. When no resolver is registered, or the registered resolver returns
`None` on the parsed hello, `connect` completes the handshake by entering
phase 2 with the static default configuration
(`unwrap_or_else(|| self.default.clone())`); the `None` resolution is not an
error and the connection is not rejected. -/
theorem connect_none_resolution_uses_default (l : TlsListener)
    (conn : List Nat) (hello : ClientHello)
    (hp : parseClientHello conn = .ok hello)
    (hnone : l.resolver = none ∨
      ∃ f, l.resolver = some f ∧ f hello = none) :
    (l.connect conn).1 = .ok ⟨l.default, hello⟩ := by
  unfold TlsListener.connect
  rw [hp]
  rcases hnone with hres | ⟨f, hres, hf⟩
  · rw [hres]
    rfl
  · rw [hres]
    simp only [hf]
    rfl

/-- C3, witness: with no registered resolver, and with a registered resolver
that declines every hello, a valid record completes with the default
configuration. -/
theorem connect_none_resolution_uses_default_witness :
    ((TlsListener.mk none ⟨[9]⟩ cfgMem).connect [22, 104]).1 =
      .ok ⟨⟨[9]⟩, ⟨some "h", []⟩⟩ ∧
    ((TlsListener.mk (some fun _ => none) ⟨[9]⟩ cfgMem).connect
      [22, 104]).1 = .ok ⟨⟨[9]⟩, ⟨some "h", []⟩⟩ := by
  constructor
  · exact connect_none_resolution_uses_default
      (TlsListener.mk none ⟨[9]⟩ cfgMem) [22, 104] ⟨some "h", []⟩
      rfl (Or.inl rfl)
  · exact connect_none_resolution_uses_default
      (TlsListener.mk (some fun _ => none) ⟨[9]⟩ cfgMem) [22, 104]
      ⟨some "h", []⟩ rfl (Or.inr ⟨fun _ => none, rfl, rfl⟩)

/-- C4. With a resolver registered, each `connect` call either fails in
phase 1 — on any byte stream that is not a valid TLS record, surfacing the
phase-1 error with an empty phase trace, so the resolver is never invoked —
or performs exactly the trace phase 1, then resolver invocation, then phase
2, in that order, with no phase skipped or reordered. -/
theorem connect_phase_order (l : TlsListener)
    (f : ClientHello → Option ServerConfig) (conn : List Nat)
    (hres : l.resolver = some f) :
    (∀ e, parseClientHello conn = .error e →
      (l.connect conn).1 = .error e ∧ (l.connect conn).2 = []) ∧
    (∀ hello, parseClientHello conn = .ok hello →
      (l.connect conn).2 =
        [.phase1Done, .resolverCalled, .phase2Entered]) := by
  constructor
  · intro e he
    unfold TlsListener.connect
    rw [he]
    exact ⟨rfl, rfl⟩
  · intro hello hhello
    unfold TlsListener.connect
    rw [hhello, hres]

/-- C4, witness: a stream not starting with a TLS handshake record fails in
phase 1 with an empty trace, and a valid record produces the full ordered
trace. -/
theorem connect_phase_order_witness :
    (((TlsListener.mk (some fun _ => none) ⟨[9]⟩ cfgMem).connect [0]).1 =
        .error .Protocol ∧
      ((TlsListener.mk (some fun _ => none) ⟨[9]⟩ cfgMem).connect [0]).2 =
        []) ∧
    ((TlsListener.mk (some fun _ => none) ⟨[9]⟩ cfgMem).connect
        [22, 104]).2 = [.phase1Done, .resolverCalled, .phase2Entered] := by
  constructor
  · exact (connect_phase_order (TlsListener.mk (some fun _ => none) ⟨[9]⟩
      cfgMem) (fun _ => none) [0] rfl).1 .Protocol rfl
  · exact (connect_phase_order (TlsListener.mk (some fun _ => none) ⟨[9]⟩
      cfgMem) (fun _ => none) [22, 104] rfl).2 ⟨some "h", []⟩ rfl

/-- C8. `TlsStream::certificates` yields the verified peer chain exactly
when mutual TLS was negotiated and the peer presented a (nonempty)
certificate chain; in every other case it yields `none`, which is an
ordinary `None` value, not a connection failure. -/
theorem certificates_iff_mtls (s : TlsStream) :
    (s.mtls_negotiated = true ∧ s.presented_chain ≠ [] →
      s.certificates = some ⟨s.presented_chain⟩) ∧
    (¬(s.mtls_negotiated = true ∧ s.presented_chain ≠ []) →
      s.certificates = none) := by
  constructor
  · intro h
    unfold TlsStream.certificates TlsStream.peer_certificates
    rw [if_pos h]
  · intro h
    unfold TlsStream.certificates TlsStream.peer_certificates
    rw [if_neg h]

/-- C8, witness: a mutual-TLS connection with a presented chain exposes it;
a connection without mutual TLS exposes nothing. -/
theorem certificates_iff_mtls_witness :
    (TlsStream.mk true [[4]]).certificates = some ⟨[[4]]⟩ ∧
    (TlsStream.mk false [[4]]).certificates = none := by
  constructor
  · exact (certificates_iff_mtls (TlsStream.mk true [[4]])).1 (by decide)
  · exact (certificates_iff_mtls (TlsStream.mk false [[4]])).2 (by decide)

end RocketTls
